import Mathlib

/-!
Shallow embedding of the `ts-combinator` parser-combinator library
(`src/src/Parser.ts` together with `src/src/Result.ts` and `src/src/Maybe.ts`)
and proofs about the spec's claims.

Modelling conventions:

* JS strings are modelled as `List Char`; a string index is a `Nat`
  (all inputs in the claims are ASCII, so UTF-16 units coincide with chars).
* `ParseResult T` merges the repo's `Result<ParseSuccess<T>, ParseError>`:
  `ok parsed index` is `Result.Ok { parsed, index, source }` (the redundant
  `source` field, which always equals the input source, is dropped), and
  `err message backtrackable` is `Result.Err { message, backtrackable }`.
  The extra `diverge` constructor models non-termination of the JS loops
  (`zeroOrMore` / `oneOrMore` / `pratt`), which are given an explicit fuel
  parameter here; a terminating JS run corresponds to any sufficiently large
  fuel, and `diverge` is propagated by every combinator.
* `Result.Err("")` values used internally by `pratt` for absent optional
  parsers are modelled as `.err [] true` (only their not-being-`Ok` matters).
* Binding powers (`number` in TS) are modelled as `Nat`: every binding power
  appearing in the repo, its tests and the spec is a non-negative integer.
* `Maybe<T>` is modelled as `Option T`.
* The staged `pratt` in `Parser.ts` (lines 745-861) reads the object
  success payloads of the parsers it invokes as tuples (`value[0]`,
  `value[1]`, array destructuring).  `prattStagedGo` / `prattStaged` model
  that staged runtime behaviour faithfully (with the JS `undefined` and
  the destructuring `TypeError` made explicit), while `prattGoIntended` /
  `prattIntended` model the engine under the tuple payload convention that
  the file's own `ParseResult` doc comment (lines 17-24) and
  `Pratt.test.ts` specify — the behaviour the staged refactor evidently
  intends.  See the C2 and C3 records.
-/

namespace TSC

/-- String literal to char-list helper (JS strings are char sequences). -/
def str (s : String) : List Char := s.data

/-- Outcome of running a parser: mirrors `ParseResult<T>` from `Parser.ts`
(`Ok {parsed, index, source}` / `Err {message, backtrackable}`), plus
`diverge` for runs of the fueled loops that exhaust their fuel (modelling
JS non-termination). -/
inductive ParseResult (T : Type) where
  | ok (parsed : T) (index : Nat)
  | err (message : List Char) (backtrackable : Bool)
  | diverge
deriving DecidableEq

/-- A parser is a function from source and start index to an outcome,
mirroring `Parser<T>` in `Parser.ts`. -/
def Parser (T : Type) : Type := List Char → Nat → ParseResult T

/-- `source.slice(a, b)` for our char lists (JS clamps out-of-range). -/
def jsSlice (source : List Char) (a b : Nat) : List Char :=
  (source.drop a).take (b - a)

/-- `source.charAt(i)`: a one-char list, or empty when out of range. -/
def jsCharAt (source : List Char) (i : Nat) : List Char :=
  match source.get? i with
  | some c => [c]
  | none => []

/-- Decimal digits of a natural number, with explicit fuel (`n + 1` always
suffices), so that the definition reduces in the kernel. -/
def natCharsAux : Nat → Nat → List Char → List Char
  | 0, _, acc => acc
  | fuel + 1, n, acc =>
    if n < 10 then Nat.digitChar n :: acc
    else natCharsAux fuel (n / 10) (Nat.digitChar (n % 10) :: acc)

/-- Decimal rendering of a natural number (as JS renders small integers). -/
def natChars (n : Nat) : List Char := natCharsAux (n + 1) n []

/-- Loop of `getCurrentLineAndColumn`: scan the first `index` characters,
counting newlines; an out-of-range `charAt` yields the empty string in JS,
which is not a newline, hence the column still increments. -/
def glcAux : Nat → List Char → Nat → Nat → Nat × Nat
  | 0, _, line, column => (line, column)
  | i + 1, [], line, column => glcAux i [] line (column + 1)
  | i + 1, c :: rest, line, column =>
    if c = '\n' then glcAux i rest (line + 1) 1
    else glcAux i rest line (column + 1)

/-- `getCurrentLineAndColumn(source, index)` from `Parser.ts`. -/
def getCurrentLineAndColumn (source : List Char) (index : Nat) : Nat × Nat :=
  glcAux index source 1 1

/-- `truncateToNextNewLine(str)` from `Parser.ts`: cut just before the first
newline occurring at position 1 or later. -/
def truncateToNextNewLine : List Char → List Char
  | [] => []
  | c :: rest => c :: rest.takeWhile (fun d => d ≠ '\n')

/-- `getErrorMessageContext(source, index)` from `Parser.ts` with the default
context widths (10 before, 10 after): returns the location header and the
context block (excerpt plus caret line). -/
def getErrorMessageContext (source : List Char) (index : Nat) :
    List Char × List Char :=
  let lc := getCurrentLineAndColumn source index
  let maxPrevContext : Nat :=
    if 1 < lc.2 then min (lc.2 - 1) 10 else 0
  let indentation : List Char := List.replicate maxPrevContext ' '
  (str "Error at (line: " ++ natChars lc.1 ++ str ", column: " ++
      natChars lc.2 ++ str ")",
   truncateToNextNewLine (jsSlice source (index - maxPrevContext) (index + 10))
      ++ '\n' :: indentation ++ ['^'])

/-- The failure message built by `exact` on a mismatch. -/
def exactErrMsg (toMatch source : List Char) (index : Nat) : List Char :=
  let lcx := getErrorMessageContext source index
  lcx.1 ++ '\n' :: str "Expected \"" ++ toMatch ++ str "\" but got \"" ++
    jsSlice source index (index + toMatch.length) ++
    str "\" instead" ++ '\n' :: '\n' :: lcx.2

/-- `Parser.exact(toMatch)` from `Parser.ts`. -/
def exact (toMatch : List Char) : Parser (List Char) := fun source index =>
  if jsSlice source index (index + toMatch.length) = toMatch then
    .ok toMatch (index + toMatch.length)
  else
    .err (exactErrMsg toMatch source index) true

/-- `Parser.succeed(value)` from `Parser.ts`. -/
def succeed {T : Type} (value : T) : Parser T := fun _ index =>
  .ok value index

/-- `Parser.fail(err)` from `Parser.ts` (always fails with the message
verbatim; the `ParseError` constructor defaults `backtrackable` to true). -/
def fail {T : Type} (e : List Char) : Parser T := fun _ _ =>
  .err e true

/-- The failure message built by `fromRegExp` on a mismatch. -/
def regexErrMsg (expected source : List Char) (index : Nat) : List Char :=
  let lcx := getErrorMessageContext source index
  lcx.1 ++ '\n' :: str "Expected " ++ expected ++ str " but got \"" ++
    jsCharAt source index ++ str "\" instead" ++ '\n' :: '\n' :: lcx.2

/-- `fromRegExp(re, expected)` from `Parser.ts`, with the anchored regular
expression replaced by an explicit matching function on the remaining input
(returning the greedily matched prefix, or none). -/
def fromRegExp (m : List Char → Option (List Char)) (expected : List Char) :
    Parser (List Char) := fun source index =>
  match m (source.drop index) with
  | none => .err (regexErrMsg expected source index) true
  | some matched => .ok matched (index + matched.length)

/-- The character class of the JS `\s` regex escape (ASCII part; the spec
limits classification to what an ASCII character-class predicate needs). -/
def isWhitespaceJs (c : Char) : Bool :=
  c == ' ' || c == '\t' || c == '\n' || c == '\r' || c == '\x0b' || c == '\x0c'

/-- The `[0-9]` character class. -/
def isDigitJs (c : Char) : Bool := '0' ≤ c && c ≤ '9'

/-- The `[a-z]` character class. -/
def isLowerJs (c : Char) : Bool := 'a' ≤ c && c ≤ 'z'

/-- The `[A-Z]` character class. -/
def isUpperJs (c : Char) : Bool := 'A' ≤ c && c ≤ 'Z'

/-- Matcher for an anchored `p*` regex: always matches, greedily. -/
def starMatch (p : Char → Bool) (s : List Char) : Option (List Char) :=
  some (s.takeWhile p)

/-- Matcher for an anchored `p+` regex: one or more, greedily. -/
def plusMatch (p : Char → Bool) (s : List Char) : Option (List Char) :=
  match s.takeWhile p with
  | [] => none
  | m => some m

/-- Matcher for an anchored single-character class regex. -/
def oneMatch (p : Char → Bool) (s : List Char) : Option (List Char) :=
  match s with
  | [] => none
  | c :: _ => if p c then some [c] else none

/-- `Parser.spaces()`: `fromRegExp(/\s*/, "whitespace")`. -/
def spaces : Parser (List Char) :=
  fromRegExp (starMatch isWhitespaceJs) (str "whitespace")

/-- `Parser.digits()`: `fromRegExp(/[0-9]+/, "digits")`. -/
def digits : Parser (List Char) :=
  fromRegExp (plusMatch isDigitJs) (str "digits")

/-- `Parser.singleDigit()`: `fromRegExp(/[0-9]/, "a digit")`. -/
def singleDigit : Parser (List Char) :=
  fromRegExp (oneMatch isDigitJs) (str "a digit")

/-- `Parser.alpha()`: `fromRegExp(/[a-zA-Z]+/, "characters")`. -/
def alpha : Parser (List Char) :=
  fromRegExp (plusMatch (fun c => isLowerJs c || isUpperJs c)) (str "characters")

/-- `Parser.singleAlpha()`: `fromRegExp(/[a-zA-Z]/, "a character")`. -/
def singleAlpha : Parser (List Char) :=
  fromRegExp (oneMatch (fun c => isLowerJs c || isUpperJs c)) (str "a character")

/-- `Parser.upper()`: `fromRegExp(/[A-Z]+/, "upper case characters")`. -/
def upper : Parser (List Char) :=
  fromRegExp (plusMatch isUpperJs) (str "upper case characters")

/-- `Parser.singleUpper()`: `fromRegExp(/[A-Z]/, "an upper case character")`. -/
def singleUpper : Parser (List Char) :=
  fromRegExp (oneMatch isUpperJs) (str "an upper case character")

/-- `Parser.lower()`: `fromRegExp(/[a-z]+/, "lower case characters")`. -/
def lower : Parser (List Char) :=
  fromRegExp (plusMatch isLowerJs) (str "lower case characters")

/-- `Parser.singleLower()`: `fromRegExp(/[a-z]/, "a lower case character")`. -/
def singleLower : Parser (List Char) :=
  fromRegExp (oneMatch isLowerJs) (str "a lower case character")

/-- `Parser.alphaNum()`: `fromRegExp(/[a-zA-Z0-9]+/, "alpha numeric characters")`. -/
def alphaNum : Parser (List Char) :=
  fromRegExp (plusMatch (fun c => isLowerJs c || isUpperJs c || isDigitJs c))
    (str "alpha numeric characters")

/-- `Parser.singleAlphaNum()`: `fromRegExp(/[a-zA-Z0-9]/, "an alpha numeric character")`. -/
def singleAlphaNum : Parser (List Char) :=
  fromRegExp (oneMatch (fun c => isLowerJs c || isUpperJs c || isDigitJs c))
    (str "an alpha numeric character")

/-- Matcher for the optional sign group `(\+|-)?`: matched sign and rest. -/
def signOpt : List Char → List Char × List Char
  | [] => ([], [])
  | c :: rest => if c = '+' || c = '-' then ([c], rest) else ([], c :: rest)

/-- Matcher for the integer group `(0|[1-9]\d*)` (greedy, `0` first as in the
regex alternation): matched digits and rest, or none. -/
def intDigitsMatch : List Char → Option (List Char × List Char)
  | [] => none
  | '0' :: rest => some (['0'], rest)
  | c :: rest =>
    if '1' ≤ c ∧ c ≤ '9' then
      some (c :: rest.takeWhile isDigitJs,
            rest.drop (rest.takeWhile isDigitJs).length)
    else none

/-- Matcher for the optional fraction group `(\.\d+)?` (greedy; matches the
empty string when no `.` followed by a digit is present). -/
def fracMatch : List Char → List Char
  | '.' :: rest =>
    match rest.takeWhile isDigitJs with
    | [] => []
    | ds => '.' :: ds
  | _ => []

/-- Anchored matcher for `/(\+|-)?(0|[1-9]\d*)(\.\d+)?/` (the `numberString`
regex). -/
def numberMatch (s : List Char) : Option (List Char) :=
  let sg := signOpt s
  match intDigitsMatch sg.2 with
  | none => none
  | some ip => some (sg.1 ++ ip.1 ++ fracMatch ip.2)

/-- Anchored matcher for `/(\+|-)?(0|[1-9]\d*)/` (the `integerPart` regex). -/
def integerMatch (s : List Char) : Option (List Char) :=
  let sg := signOpt s
  match intDigitsMatch sg.2 with
  | none => none
  | some ip => some (sg.1 ++ ip.1)

/-- `Parser.numberString()` from `Parser.ts`. -/
def numberString : Parser (List Char) :=
  fromRegExp numberMatch (str "a number")

/-- `Parser.integerPart()` from `Parser.ts`. -/
def integerPart : Parser (List Char) :=
  fromRegExp integerMatch (str "an integer")

/-- The value of a JS number produced by `Number()` on a `numberString`
match, modelled as the exact decimal it denotes: `mant / 10 ^ scale`.
Exact whenever the decimal is within double precision, which holds for every
input the spec or the tests exercise; double rounding of longer literals is
not modelled. -/
structure JsNumber where
  mant : Int
  scale : Nat
deriving DecidableEq

/-- `Number(s)` on a `numberString` match: sign, integer digits, fraction. -/
def decValue (cs : List Char) : JsNumber :=
  let sg := signOpt cs
  let sign : Int := if sg.1 = ['-'] then -1 else 1
  let ip := (sg.2.takeWhile isDigitJs)
  let rest := sg.2.drop ip.length
  let fd :=
    match rest with
    | '.' :: r => r.takeWhile isDigitJs
    | _ => []
  let digitsToNat (l : List Char) : Nat :=
    l.foldl (fun a c => a * 10 + (c.toNat - 48)) 0
  { mant := sign * (digitsToNat ip * 10 ^ fd.length + digitsToNat fd : Nat),
    scale := fd.length }

/-- `Number.isSafeInteger` on the exact decimal value: an integer of absolute
value at most `2 ^ 53 - 1`. -/
def jsIsSafeInteger (v : JsNumber) : Bool :=
  v.mant % (10 ^ v.scale : Nat) == 0 &&
    v.mant.natAbs / 10 ^ v.scale ≤ 2 ^ 53 - 1

/-- Strip trailing zero fraction digits: auxiliary for rendering. -/
def stripZeros : Nat → Int → Nat → Int × Nat
  | 0, n, k => (n, k)
  | _ + 1, n, 0 => (n, 0)
  | fuel + 1, n, k + 1 =>
    if n % 10 == 0 then stripZeros fuel (n / 10) k else (n, k + 1)

/-- JS `ToString` on a number value coming from a `numberString` match
(shortest decimal form: trailing fraction zeros dropped, `-0` printed `0`). -/
def jsNumChars (v : JsNumber) : List Char :=
  let nk := stripZeros v.scale v.mant v.scale
  let a := nk.1.natAbs
  let sign : List Char := if nk.1 < 0 then ['-'] else []
  if nk.2 = 0 then sign ++ natChars a
  else
    let fracDigits := natChars (a % 10 ^ nk.2)
    sign ++ natChars (a / 10 ^ nk.2) ++ '.' ::
      (List.replicate (nk.2 - fracDigits.length) '0' ++ fracDigits)

/-- `Parser.map(func, parser)` from `Parser.ts` (`Result.map` on the outcome;
failures are forwarded unchanged, divergence propagates). -/
def map {A B : Type} (func : A → B) (parser : Parser A) : Parser B :=
  fun source index =>
    match parser source index with
    | .ok parsed newIndex => .ok (func parsed) newIndex
    | .err m b => .err m b
    | .diverge => .diverge

/-- `Parser.number()`: `map(Number, numberString())`. -/
def number : Parser JsNumber := map decValue numberString

/-- The failure message built by `int` when the parsed number is not a safe
integer. -/
def intErrMsg (v : JsNumber) (source : List Char) (index : Nat) : List Char :=
  let lcx := getErrorMessageContext source index
  lcx.1 ++ '\n' :: str "Expected an integer but got \"" ++ jsNumChars v ++
    str "\" instead" ++ '\n' :: '\n' :: lcx.2

/-- `Parser.int()` from `Parser.ts`: parse via `number()`, then verify the
result is a safe integer. -/
def int : Parser JsNumber := fun source index =>
  match number source index with
  | .err m b => .err m b
  | .diverge => .diverge
  | .ok parsed newIndex =>
    if jsIsSafeInteger parsed then .ok parsed newIndex
    else .err (intErrMsg parsed source index) true

/-- Loop shared by `zeroOrMore` and `oneOrMore`: apply `parser` repeatedly,
collecting values, until it fails; a backtrackable terminating failure ends
the loop successfully, a non-backtrackable one fails the repetition with a
failure rebuilt from the message alone (`ParseError(message)`, whose
`backtrackable` defaults to true). `fuel` bounds the number of iterations:
the JS loop re-invokes a pure function at the same index after any
non-consuming success and hence diverges, modelled by `diverge`. -/
def repGo {T : Type} (parser : Parser T) (source : List Char) :
    Nat → Nat → List T → ParseResult (List T)
  | 0, _, _ => .diverge
  | fuel + 1, index, results =>
    match parser source index with
    | .ok parsed newIndex => repGo parser source fuel newIndex (results ++ [parsed])
    | .err m b => if b then .ok results index else .err m true
    | .diverge => .diverge

/-- `Parser.zeroOrMore(parser)` from `Parser.ts` (fueled). -/
def zeroOrMore {T : Type} (fuel : Nat) (parser : Parser T) : Parser (List T) :=
  fun source index => repGo parser source fuel index []

/-- `Parser.oneOrMore(parser)` from `Parser.ts` (fueled): the first failure is
returned as-is; after the first success the loop proceeds as in
`zeroOrMore`. -/
def oneOrMore {T : Type} (fuel : Nat) (parser : Parser T) : Parser (List T) :=
  fun source index =>
    match parser source index with
    | .err m b => .err m b
    | .diverge => .diverge
    | .ok parsed newIndex => repGo parser source fuel newIndex [parsed]

/-- Loop of `Parser.oneOf(...parsers)`: try each parser at the original
offset; return the first success; stop on a non-backtrackable failure,
rebuilding it from the message (`ParseError(message)`, backtrackable true);
after all parsers failed backtrackably, return the last failure unchanged;
with no parsers at all, the fixed `"No parsers provided"` failure. -/
def oneOfGo {T : Type} (source : List Char) (index : Nat) :
    List (Parser T) → ParseResult T
  | [] => .err (str "No parsers provided") true
  | [parser] =>
    match parser source index with
    | .ok v j => .ok v j
    | .err m b => if b then .err m b else .err m true
    | .diverge => .diverge
  | parser :: next :: rest =>
    match parser source index with
    | .ok v j => .ok v j
    | .err m b => if b then oneOfGo source index (next :: rest) else .err m true
    | .diverge => .diverge

/-- `Parser.oneOf(...parsers)` from `Parser.ts`. -/
def oneOf {T : Type} (parsers : List (Parser T)) : Parser T :=
  fun source index => oneOfGo source index parsers

/-- `Parser.optional(parser, defaultValue)`: `oneOf(parser, succeed(default))`. -/
def optional {T : Type} (parser : Parser T) (defaultValue : T) : Parser T :=
  oneOf [parser, succeed defaultValue]

/-- `Parser.maybe(parser)`: `oneOf(map(Just, parser), succeed(Nothing))`,
with `Maybe` modelled as `Option`. -/
def maybe {T : Type} (parser : Parser T) : Parser (Option T) :=
  oneOf [map Option.some parser, succeed Option.none]

/-- `Parser.lazy(factory)` from `Parser.ts`: call the factory at parse time. -/
def lazy {T : Type} (factory : Unit → Parser T) : Parser T :=
  fun source index => factory () source index

/-- `Parser.conditional(antecedent, consequent)` from `Parser.ts`: an
antecedent failure propagates as-is; a consequent failure is converted to
non-backtrackable; joint success yields the pair at the consequent's end
offset. -/
def conditional {A B : Type} (antecedent : Parser A) (consequent : Parser B) :
    Parser (A × B) := fun source index =>
  match antecedent source index with
  | .err m b => .err m b
  | .diverge => .diverge
  | .ok parsedAnt newIndex =>
    match consequent source newIndex with
    | .err m _ => .err m false
    | .diverge => .diverge
    | .ok parsedCons endIndex => .ok (parsedAnt, parsedCons) endIndex

/-- Loop of the general (homogeneous) `Parser.sequence(...parsers)`: run each
parser in order at the cumulative offset, returning the first failure
immediately, else the list of values at the final offset. -/
def seqGo {T : Type} (source : List Char) :
    List (Parser T) → Nat → ParseResult (List T)
  | [], index => .ok [] index
  | parser :: rest, index =>
    match parser source index with
    | .err m b => .err m b
    | .diverge => .diverge
    | .ok parsed newIndex =>
      match seqGo source rest newIndex with
      | .ok parsedRest endIndex => .ok (parsed :: parsedRest) endIndex
      | .err m b => .err m b
      | .diverge => .diverge

/-- `Parser.sequence(...parsers)` from `Parser.ts` (general homogeneous
case; the fixed-arity heterogeneous overloads are a typing convenience over
this same runtime function). -/
def sequence {T : Type} (parsers : List (Parser T)) : Parser (List T) :=
  fun source index => seqGo source parsers index

/-- `Parser.UnaryOperator<T>` from `Parser.ts`. -/
structure UnaryOperator (T : Type) where
  symbol : T
  bindingPower : Nat
deriving DecidableEq

/-- `Parser.BinaryOperator<T>` from `Parser.ts`. -/
structure BinaryOperator (T : Type) where
  symbol : T
  bindingPower : Nat × Nat
deriving DecidableEq

/-- `Parser.toUnaryOperator(operatorSymbol, bindingPower)` from `Parser.ts`:
the symbol surrounded by `spaces`, tagged with its binding power (the mapped
function destructures the second element of the sequence value). -/
def toUnaryOperator {T : Type} (operatorSymbol : Parser T)
    (bindingPower : Nat) : Parser (UnaryOperator T) :=
  mapPick operatorSymbol fun symbol => UnaryOperator.mk symbol bindingPower
where
  /-- Helper spelling out `map(([, symbol]) => ..., sequence(spaces(), op, spaces()))`
  on the heterogeneous triple. -/
  mapPick {T U : Type} (opSym : Parser T) (f : T → U) : Parser U :=
    fun source index =>
      match spaces source index with
      | .err m b => .err m b
      | .diverge => .diverge
      | .ok _ i1 =>
        match opSym source i1 with
        | .err m b => .err m b
        | .diverge => .diverge
        | .ok symbol i2 =>
          match spaces source i2 with
          | .err m b => .err m b
          | .diverge => .diverge
          | .ok _ i3 => .ok (f symbol) i3

/-- `Parser.toBinaryOperator(operatorSymbol, bindingPower)` from `Parser.ts`. -/
def toBinaryOperator {T : Type} (operatorSymbol : Parser T)
    (bindingPower : Nat × Nat) : Parser (BinaryOperator T) :=
  toUnaryOperator.mapPick operatorSymbol fun symbol =>
    BinaryOperator.mk symbol bindingPower

/-- The `infix` field of `Parser.OperatorOptions`; the TS union `Acc | T` is
collapsed into the single value type `U`. -/
structure InfixOption (U I : Type) where
  op : Parser (BinaryOperator I)
  acc : I → U → U → U

/-- The optional `prefix` field of `Parser.OperatorOptions`. -/
structure PreOption (U P : Type) where
  op : Parser (UnaryOperator P)
  acc : P → U → U

/-- The optional `postfix` field of `Parser.OperatorOptions`. -/
structure PostOption (U Q : Type) where
  op : Parser (UnaryOperator Q)
  acc : Q → U → U

/-- The optional `scope` field of `Parser.OperatorOptions`. -/
structure ScopeOption where
  scopeBegin : Parser (List Char)
  scopeEnd : Parser (List Char)

/-- `prefix === undefined ? Result.Err("") : prefix.op.parse(source, index)`:
an absent optional operator parser behaves as a failed parse. -/
def optUn {U P : Type} (o : Option (PreOption U P)) (source : List Char)
    (index : Nat) : ParseResult (UnaryOperator P) :=
  match o with
  | none => .err [] true
  | some pc => pc.op source index

/-- Same for the `postfix` option. -/
def optUnPost {U Q : Type} (o : Option (PostOption U Q)) (source : List Char)
    (index : Nat) : ParseResult (UnaryOperator Q) :=
  match o with
  | none => .err [] true
  | some pc => pc.op source index

/-- `scope === undefined ? Result.Err("") : scope.scopeBegin.parse(...)`. -/
def optScopeBegin (o : Option ScopeOption) (source : List Char)
    (index : Nat) : ParseResult (List Char) :=
  match o with
  | none => .err [] true
  | some sc => sc.scopeBegin source index

/-- `scope === undefined ? Result.Err("") : scope.scopeEnd.parse(...)`. -/
def optScopeEnd (o : Option ScopeOption) (source : List Char)
    (index : Nat) : ParseResult (List Char) :=
  match o with
  | none => .err [] true
  | some sc => sc.scopeEnd source index

/-- One activation of the recursive `expr` procedure inside `pratt`: either
an `expr(minBindingPower)` call about to parse a left-hand side, or the
`while (true)` loop continuing with accumulated value `full` at `index`. -/
inductive PrattCall (U : Type) where
  | expr (minBindingPower : Nat) (index : Nat)
  | loop (minBindingPower : Nat) (full : U) (index : Nat)

/-- The start index of an activation. -/
def PrattCall.idx {U : Type} : PrattCall U → Nat
  | .expr _ i => i
  | .loop _ _ i => i

/-- The recursive engine of `Parser.pratt` under the TUPLE success
convention `Result.Ok([parsed, index, source])` that `Parser.ts`'s own
`ParseResult` doc comment (lines 17-24) documents and that `Parser.test.ts`,
`Pratt.test.ts` and `CaseConverter.ts` consume (`result.value[0]` /
`result.value[1]`).  The staged code in `src/src/Parser.ts` declares the
OBJECT payload `{parsed, index, source}` instead and `pratt` (lines
745-861) still indexes it as a tuple; this definition therefore captures
the engine's evident intent, not the staged runtime behaviour — see
`prattStagedGo` below for the faithful model of the staged code and the
C2/C3 records for the resulting bug.  The mutable `index` is threaded
explicitly and the `while (true)` loop is the `.loop` activation; each
recursive call and loop iteration consumes one unit of fuel; exhausted
fuel models JS non-termination. -/
def prattGoIntended {U I P Q : Type} (left : Parser U) (inf : InfixOption U I)
    (pre : Option (PreOption U P)) (post : Option (PostOption U Q))
    (scope : Option ScopeOption) (source : List Char) :
    Nat → PrattCall U → ParseResult U
  | 0, _ => .diverge
  | fuel + 1, .expr minBindingPower index =>
    match optUn pre source index with
    | .diverge => .diverge
    | .ok u newIndex =>
      match prattGoIntended left inf pre post scope source fuel
          (.expr u.bindingPower newIndex) with
      | .err m b => .err m b
      | .diverge => .diverge
      | .ok rhs rhsIndex =>
        let full : U :=
          match pre with
          | none => rhs
          | some pc => pc.acc u.symbol rhs
        prattGoIntended left inf pre post scope source fuel
          (.loop minBindingPower full rhsIndex)
    | .err _ _ =>
      match optScopeBegin scope source index with
      | .diverge => .diverge
      | .ok _ newIndex =>
        match prattGoIntended left inf pre post scope source fuel (.expr 0 newIndex) with
        | .err m b => .err m b
        | .diverge => .diverge
        | .ok lhs lhsIndex =>
          match optScopeEnd scope source lhsIndex with
          | .diverge => .diverge
          | .err m b => .err m b
          | .ok _ endIndex =>
            prattGoIntended left inf pre post scope source fuel
              (.loop minBindingPower lhs endIndex)
      | .err _ _ =>
        match left source index with
        | .err m b => .err m b
        | .diverge => .diverge
        | .ok lhs newIndex =>
          prattGoIntended left inf pre post scope source fuel
            (.loop minBindingPower lhs newIndex)
  | fuel + 1, .loop minBindingPower full index =>
    if index = source.length then .ok full index
    else
      match optUnPost post source index with
      | .diverge => .diverge
      | .ok u newIndex =>
        if u.bindingPower < minBindingPower then .ok full index
        else
          let full2 : U :=
            match post with
            | none => full
            | some pc => pc.acc u.symbol full
          prattGoIntended left inf pre post scope source fuel
            (.loop minBindingPower full2 newIndex)
      | .err _ _ =>
        match optScopeEnd scope source index with
        | .diverge => .diverge
        | .ok _ _ => .ok full index
        | .err _ _ =>
          match inf.op source index with
          | .err m b => .err m b
          | .diverge => .diverge
          | .ok bop newIndex =>
            if bop.bindingPower.1 < minBindingPower then .ok full index
            else
              match prattGoIntended left inf pre post scope source fuel
                  (.expr bop.bindingPower.2 newIndex) with
              | .err m b => .err m b
              | .diverge => .diverge
              | .ok rhs rhsIndex =>
                prattGoIntended left inf pre post scope source fuel
                  (.loop minBindingPower (inf.acc bop.symbol full rhs) rhsIndex)

/-- `Parser.pratt(left, {infix, prefix, postfix, scope})` under the tuple
success convention (the intent model, see `prattGoIntended`): run `expr()`
with minimum binding power 0 at the given index. -/
def prattIntended {U I P Q : Type} (fuel : Nat) (left : Parser U)
    (inf : InfixOption U I) (pre : Option (PreOption U P))
    (post : Option (PostOption U Q)) (scope : Option ScopeOption) :
    Parser U := fun source index =>
  prattGoIntended left inf pre post scope source fuel (.expr 0 index)

/-- Outcome of running the STAGED `pratt` of `Parser.ts` (lines 745-861),
whose sub-parsers return the object payload `{parsed, index, source}` while
the engine reads it as a tuple.  Successes are
`Result.Ok([full, index, source])` where `full` and `index` may be the JS
`undefined` (modelled `none`): `full = lhs.value[0]` and
`index = lhs.value[1]` on an object payload are property accesses that
yield `undefined` (lines 777, 792, 799-800).  `thrown` models the
`TypeError` raised by array-destructuring a non-iterable object payload
(lines 755-758, 815-818, 844). -/
inductive StagedResult (U : Type) where
  | ok (full : Option U) (index : Option Nat)
  | err (message : List Char) (backtrackable : Bool)
  | thrown
  | diverge
deriving DecidableEq

/-- Passing the staged engine's `index` to a sub-parser: `p.parse(source,
index)` where `index` may be `undefined`; every parser in the library
declares `index: number = 0`, so `undefined` selects the default 0. -/
def jsIdx (i : Option Nat) : Nat := i.getD 0

/-- `isEof()` of the staged engine: `index === source.length`, which is
false when `index` is `undefined`. -/
def stagedIsEof (source : List Char) : Option Nat → Bool
  | none => false
  | some i => i == source.length

/-- One activation of the staged engine: as `PrattCall`, but `full` and
`index` can be the JS `undefined`. -/
inductive StagedCall (U : Type) where
  | expr (minBindingPower : Nat) (index : Option Nat)
  | loop (minBindingPower : Nat) (full : Option U) (index : Option Nat)

/-- Faithful model of the staged `Parser.pratt` engine (`Parser.ts`
745-861), translating the tuple reads of object payloads by their JS
runtime semantics.  Branch by branch:
* a successful `prefix.op` (line 754) reaches the array destructuring of
  its object payload (755-758) and throws;
* a successful `scopeBegin` sets `index = scopeBeginResult.value[1]`, i.e.
  `undefined` (777), recurses with `expr(0)`; the recursive result is a
  genuine tuple (857), so `lhs.value[0]` is its `full`; a successful
  `scopeEnd` then sets `index` to `undefined` again (792);
* a successful `left` leaf sets `full = lhs.value[0]` and
  `index = lhs.value[1]`, both `undefined` (799-800);
* in the loop, a successful `postfix.op` throws at its destructuring
  (815-818); a successful `scopeEnd` breaks (836-838); a failed `infix.op`
  is returned (841-843); a successful `infix.op` throws at its
  destructuring (844).
The single mutable `index` shared by all activations equals, at every
return point, the index component of the returned tuple, so threading it
through the activations is faithful. -/
def prattStagedGo {U I P Q : Type} (left : Parser U) (inf : InfixOption U I)
    (pre : Option (PreOption U P)) (post : Option (PostOption U Q))
    (scope : Option ScopeOption) (source : List Char) :
    Nat → StagedCall U → StagedResult U
  | 0, _ => .diverge
  | fuel + 1, .expr minBindingPower index =>
    match optUn pre source (jsIdx index) with
    | .diverge => .diverge
    | .ok _ _ => .thrown
    | .err _ _ =>
      match optScopeBegin scope source (jsIdx index) with
      | .diverge => .diverge
      | .ok _ _ =>
        match prattStagedGo left inf pre post scope source fuel
            (.expr 0 none) with
        | .err m b => .err m b
        | .thrown => .thrown
        | .diverge => .diverge
        | .ok lhsFull lhsIndex =>
          match optScopeEnd scope source (jsIdx lhsIndex) with
          | .diverge => .diverge
          | .err m b => .err m b
          | .ok _ _ =>
            prattStagedGo left inf pre post scope source fuel
              (.loop minBindingPower lhsFull none)
      | .err _ _ =>
        match left source (jsIdx index) with
        | .err m b => .err m b
        | .diverge => .diverge
        | .ok _ _ =>
          prattStagedGo left inf pre post scope source fuel
            (.loop minBindingPower none none)
  | _ + 1, .loop _ full index =>
    if stagedIsEof source index then .ok full index
    else
      match optUnPost post source (jsIdx index) with
      | .diverge => .diverge
      | .ok _ _ => .thrown
      | .err _ _ =>
        match optScopeEnd scope source (jsIdx index) with
        | .diverge => .diverge
        | .ok _ _ => .ok full index
        | .err _ _ =>
          match inf.op source (jsIdx index) with
          | .err m b => .err m b
          | .diverge => .diverge
          | .ok _ _ => .thrown

/-- The staged `Parser.pratt` as invoked: `expr()` with minimum binding
power 0 and the caller's (defined) start index. -/
def prattStaged {U I P Q : Type} (fuel : Nat) (left : Parser U)
    (inf : InfixOption U I) (pre : Option (PreOption U P))
    (post : Option (PostOption U Q)) (scope : Option ScopeOption)
    (source : List Char) (index : Nat) : StagedResult U :=
  prattStagedGo left inf pre post scope source fuel (.expr 0 (some index))

/-- A concrete staged-`pratt` run that reaches a success: leaf `exact("x")`,
scope `(` / `x`, source `"x"`.  The leaf succeeds, the engine's tuple reads
of the object payload make `full` and `index` `undefined`, and the
scope-end parser (tried at the defaulted offset 0) matches, breaking the
loop with `Result.Ok([undefined, undefined, source])`. -/
def stagedScopeExample : StagedResult (List Char) :=
  prattStaged 10 (exact (str "x"))
    (⟨toBinaryOperator (exact (str "-")) (1, 2), fun _ l _ => l⟩ :
      InfixOption (List Char) (List Char))
    (none : Option (PreOption (List Char) (List Char)))
    (none : Option (PostOption (List Char) (List Char)))
    (some ⟨exact (str "("), exact (str "x")⟩) (str "x") 0

/-- Expression trees for observing how the Pratt engine associates infix
operators (the accumulation functions build nodes, so the tree records the
fold structure). -/
inductive Sx where
  | leaf (s : List Char)
  | bin (op : List Char) (l r : Sx)
deriving DecidableEq

/-- Integer leaves for the Pratt instances: `integerPart` wrapped in a leaf
node. -/
def leafSx : Parser Sx := map Sx.leaf integerPart

/-- The claim's operator table: infix `-` at binding power `[1, 2]` and `/`
at `[3, 4]`, accumulating into tree nodes. -/
def infixMinusDiv : InfixOption Sx (List Char) :=
  ⟨oneOf [toBinaryOperator (exact (str "-")) (1, 2),
          toBinaryOperator (exact (str "/")) (3, 4)], Sx.bin⟩

/-- A single infix operator `-` encoded with binding power `(n, n + 1)`
(the left-associative encoding). -/
def infixLeftAssoc (n : Nat) : InfixOption Sx (List Char) :=
  ⟨toBinaryOperator (exact (str "-")) (n, n + 1), Sx.bin⟩

/-- A single infix operator `-` encoded with binding power `(n + 1, n)`
(the right-associative encoding). -/
def infixRightAssoc (n : Nat) : InfixOption Sx (List Char) :=
  ⟨toBinaryOperator (exact (str "-")) (n + 1, n), Sx.bin⟩

/-- `prattGoIntended` specialized to a configuration with no prefix,
postfix or scope parsers (used to trace the associativity runs of the
intent model step by step). -/
def prattIntendedNN {U I : Type} (left : Parser U) (inf : InfixOption U I)
    (s : List Char) : Nat → PrattCall U → ParseResult U :=
  prattGoIntended left inf (none : Option (PreOption U (List Char)))
    (none : Option (PostOption U (List Char))) none s

/-- Offset monotonicity: whenever the parser succeeds, the reported end
offset is at least the input offset. -/
def Mono {T : Type} (p : Parser T) : Prop :=
  ∀ source index parsed endIndex,
    p source index = .ok parsed endIndex → index ≤ endIndex

theorem mono_exact (toMatch : List Char) : Mono (exact toMatch) := by
  intro s i v j h
  unfold exact at h
  split at h
  · cases h; exact Nat.le_add_right _ _
  · cases h

theorem mono_succeed {T : Type} (value : T) : Mono (succeed value) := by
  intro s i v j h
  cases h; exact Nat.le_refl _

theorem mono_fail {T : Type} (e : List Char) : Mono (fail (T := T) e) := by
  intro s i v j h
  cases h

theorem mono_fromRegExp (m : List Char → Option (List Char))
    (expected : List Char) : Mono (fromRegExp m expected) := by
  intro s i v j h
  unfold fromRegExp at h
  split at h
  · cases h
  · cases h; exact Nat.le_add_right _ _

theorem mono_map {A B : Type} (func : A → B) (parser : Parser A)
    (hp : Mono parser) : Mono (map func parser) := by
  intro s i v j h
  unfold map at h
  cases heq : parser s i with
  | ok v' j' => rw [heq] at h; cases h; exact hp s i v' j heq
  | err m b => rw [heq] at h; cases h
  | diverge => rw [heq] at h; cases h

theorem mono_number : Mono number :=
  mono_map _ _ (mono_fromRegExp _ _)

theorem mono_int : Mono int := by
  intro s i v j h
  unfold int at h
  cases heq : number s i with
  | ok v' j' =>
    rw [heq] at h
    dsimp only at h
    split at h
    · cases h; exact mono_number s i _ _ heq
    · cases h
  | err m b => rw [heq] at h; cases h
  | diverge => rw [heq] at h; cases h

theorem mono_repGo {T : Type} (parser : Parser T) (hp : Mono parser)
    (source : List Char) :
    ∀ fuel index results parsed endIndex,
      repGo parser source fuel index results = .ok parsed endIndex →
        index ≤ endIndex := by
  intro fuel
  induction fuel with
  | zero => intro i acc v j h; cases h
  | succ fuel ih =>
    intro i acc v j h
    unfold repGo at h
    split at h
    next v' j' heq =>
      exact Nat.le_trans (hp source i v' j' heq) (ih j' _ v j h)
    next m b heq =>
      split at h
      · cases h; exact Nat.le_refl _
      · cases h
    · cases h

theorem mono_zeroOrMore {T : Type} (fuel : Nat) (parser : Parser T)
    (hp : Mono parser) : Mono (zeroOrMore fuel parser) := by
  intro s i v j h
  exact mono_repGo parser hp s fuel i [] v j h

theorem mono_oneOrMore {T : Type} (fuel : Nat) (parser : Parser T)
    (hp : Mono parser) : Mono (oneOrMore fuel parser) := by
  intro s i v j h
  unfold oneOrMore at h
  split at h
  · cases h
  · cases h
  next v' j' heq =>
    exact Nat.le_trans (hp s i v' j' heq) (mono_repGo parser hp s fuel j' _ v j h)

theorem mono_oneOfGo {T : Type} (source : List Char) (index : Nat) :
    ∀ parsers : List (Parser T), (∀ p ∈ parsers, Mono p) →
      ∀ parsed endIndex, oneOfGo source index parsers = .ok parsed endIndex →
        index ≤ endIndex := by
  intro parsers
  induction parsers with
  | nil => intro _ v j h; cases h
  | cons parser rest ih =>
    intro hps v j h
    cases rest with
    | nil =>
      unfold oneOfGo at h
      split at h
      next heq => cases h; exact hps parser (by simp) source index v j heq
      next m b heq => split at h <;> cases h
      · cases h
    | cons next' rest' =>
      unfold oneOfGo at h
      split at h
      next heq => cases h; exact hps parser (by simp) source index v j heq
      next m b heq =>
        split at h
        · exact ih (fun p hp => hps p (List.mem_cons_of_mem _ hp)) v j h
        · cases h
      · cases h

theorem mono_oneOf {T : Type} (parsers : List (Parser T))
    (hps : ∀ p ∈ parsers, Mono p) : Mono (oneOf parsers) := by
  intro s i v j h
  exact mono_oneOfGo s i parsers hps v j h

theorem mono_optional {T : Type} (parser : Parser T) (defaultValue : T)
    (hp : Mono parser) : Mono (optional parser defaultValue) := by
  apply mono_oneOf
  intro p hp'
  rw [List.mem_cons, List.mem_singleton] at hp'
  cases hp' with
  | inl h => rw [h]; exact hp
  | inr h => rw [h]; exact mono_succeed defaultValue

theorem mono_maybe {T : Type} (parser : Parser T) (hp : Mono parser) :
    Mono (maybe parser) := by
  apply mono_oneOf
  intro p hp'
  rw [List.mem_cons, List.mem_singleton] at hp'
  cases hp' with
  | inl h => rw [h]; exact mono_map _ _ hp
  | inr h => rw [h]; exact mono_succeed _

theorem mono_lazy {T : Type} (factory : Unit → Parser T)
    (hp : Mono (factory ())) : Mono (lazy factory) := by
  intro s i v j h
  exact hp s i v j h

theorem mono_conditional {A B : Type} (antecedent : Parser A)
    (consequent : Parser B) (ha : Mono antecedent) (hc : Mono consequent) :
    Mono (conditional antecedent consequent) := by
  intro s i v j h
  unfold conditional at h
  split at h
  · cases h
  · cases h
  next va j' heq =>
    split at h
    · cases h
    · cases h
    next vc k heq' =>
      cases h
      exact Nat.le_trans (ha s i va j' heq) (hc s j' vc j heq')

theorem mono_seqGo {T : Type} (source : List Char) :
    ∀ parsers : List (Parser T), (∀ p ∈ parsers, Mono p) →
      ∀ index parsed endIndex,
        seqGo source parsers index = .ok parsed endIndex → index ≤ endIndex := by
  intro parsers
  induction parsers with
  | nil => intro _ i v j h; cases h; exact Nat.le_refl _
  | cons parser rest ih =>
    intro hps i v j h
    unfold seqGo at h
    split at h
    · cases h
    · cases h
    next v' j' heq =>
      split at h
      next vs k heq' =>
        cases h
        exact Nat.le_trans (hps parser (by simp) source i v' j' heq)
          (ih (fun p hp => hps p (List.mem_cons_of_mem _ hp)) j' vs j heq')
      · cases h
      · cases h

theorem mono_sequence {T : Type} (parsers : List (Parser T))
    (hps : ∀ p ∈ parsers, Mono p) : Mono (sequence parsers) := by
  intro s i v j h
  exact mono_seqGo s parsers hps i v j h

theorem mono_optUn {U P : Type} (o : Option (PreOption U P))
    (ho : ∀ pc, o = some pc → Mono pc.op) (source : List Char) (index : Nat)
    (u : UnaryOperator P) (j : Nat) (h : optUn o source index = .ok u j) :
    index ≤ j := by
  cases o with
  | none => cases h
  | some pc => exact ho pc rfl source index u j h

theorem mono_optUnPost {U Q : Type} (o : Option (PostOption U Q))
    (ho : ∀ pc, o = some pc → Mono pc.op) (source : List Char) (index : Nat)
    (u : UnaryOperator Q) (j : Nat) (h : optUnPost o source index = .ok u j) :
    index ≤ j := by
  cases o with
  | none => cases h
  | some pc => exact ho pc rfl source index u j h

theorem mono_optScopeBegin (o : Option ScopeOption)
    (ho : ∀ sc, o = some sc → Mono sc.scopeBegin) (source : List Char)
    (index : Nat) (v : List Char) (j : Nat)
    (h : optScopeBegin o source index = .ok v j) : index ≤ j := by
  cases o with
  | none => cases h
  | some sc => exact ho sc rfl source index v j h

theorem mono_optScopeEnd (o : Option ScopeOption)
    (ho : ∀ sc, o = some sc → Mono sc.scopeEnd) (source : List Char)
    (index : Nat) (v : List Char) (j : Nat)
    (h : optScopeEnd o source index = .ok v j) : index ≤ j := by
  cases o with
  | none => cases h
  | some sc => exact ho sc rfl source index v j h

theorem mono_prattGoIntended {U I P Q : Type} (left : Parser U) (inf : InfixOption U I)
    (pre : Option (PreOption U P)) (post : Option (PostOption U Q))
    (scope : Option ScopeOption)
    (hleft : Mono left) (hinf : Mono inf.op)
    (hpre : ∀ pc, pre = some pc → Mono pc.op)
    (hpost : ∀ pc, post = some pc → Mono pc.op)
    (hscb : ∀ sc, scope = some sc → Mono sc.scopeBegin)
    (hsce : ∀ sc, scope = some sc → Mono sc.scopeEnd)
    (source : List Char) :
    ∀ fuel call parsed endIndex,
      prattGoIntended left inf pre post scope source fuel call = .ok parsed endIndex →
        call.idx ≤ endIndex := by
  intro fuel
  induction fuel with
  | zero => intro call v j h; cases h
  | succ fuel ih =>
    intro call v j h
    cases call with
    | expr minBindingPower index =>
      simp only [PrattCall.idx]
      unfold prattGoIntended at h
      split at h
      · cases h
      next u k hu =>
        split at h
        · cases h
        · cases h
        next rhs k2 hr =>
          have h1 : index ≤ k := mono_optUn pre hpre source index u k hu
          have h2 : k ≤ k2 := ih (.expr u.bindingPower k) rhs k2 hr
          have h3 : k2 ≤ j := ih (.loop minBindingPower _ k2) v j h
          omega
      next hu =>
        split at h
        · cases h
        next sv k hsb =>
          split at h
          · cases h
          · cases h
          next lhs k2 hl =>
            split at h
            · cases h
            · cases h
            next ev k3 hse =>
              have h1 : index ≤ k := mono_optScopeBegin scope hscb source index sv k hsb
              have h2 : k ≤ k2 := ih (.expr 0 k) lhs k2 hl
              have h3 : k2 ≤ k3 := mono_optScopeEnd scope hsce source k2 ev k3 hse
              have h4 : k3 ≤ j := ih (.loop minBindingPower lhs k3) v j h
              omega
        next hsb =>
          split at h
          · cases h
          · cases h
          next lhs k hl =>
            have h1 : index ≤ k := hleft source index lhs k hl
            have h2 : k ≤ j := ih (.loop minBindingPower lhs k) v j h
            omega
    | loop minBindingPower full index =>
      simp only [PrattCall.idx]
      unfold prattGoIntended at h
      split at h
      · cases h; exact Nat.le_refl _
      split at h
      · cases h
      next u k hu =>
        split at h
        · cases h; exact Nat.le_refl _
        have h1 : index ≤ k := mono_optUnPost post hpost source index u k hu
        have h2 : k ≤ j := ih (.loop minBindingPower _ k) v j h
        omega
      next hu =>
        split at h
        · cases h
        · cases h; exact Nat.le_refl _
        next hse =>
          split at h
          · cases h
          · cases h
          next bop k hop =>
            split at h
            · cases h; exact Nat.le_refl _
            split at h
            · cases h
            · cases h
            next rhs k2 hr =>
              have h1 : index ≤ k := hinf source index bop k hop
              have h2 : k ≤ k2 := ih (.expr bop.bindingPower.2 k) rhs k2 hr
              have h3 : k2 ≤ j := ih (.loop minBindingPower _ k2) v j h
              omega

theorem mono_prattIntended {U I P Q : Type} (fuel : Nat) (left : Parser U)
    (inf : InfixOption U I) (pre : Option (PreOption U P))
    (post : Option (PostOption U Q)) (scope : Option ScopeOption)
    (hleft : Mono left) (hinf : Mono inf.op)
    (hpre : ∀ pc, pre = some pc → Mono pc.op)
    (hpost : ∀ pc, post = some pc → Mono pc.op)
    (hscb : ∀ sc, scope = some sc → Mono sc.scopeBegin)
    (hsce : ∀ sc, scope = some sc → Mono sc.scopeEnd) :
    Mono (prattIntended fuel left inf pre post scope) := by
  intro s i v j h
  exact mono_prattGoIntended left inf pre post scope hleft hinf hpre hpost hscb hsce
    s fuel (.expr 0 i) v j h

theorem repGo_ne_err {T : Type} (p : Parser T) (s : List Char)
    (hb : ∀ i m b, p s i = .err m b → b = true) :
    ∀ fuel i acc m b, repGo p s fuel i acc ≠ .err m b := by
  intro fuel
  induction fuel with
  | zero => intro i acc m b h; cases h
  | succ fuel ih =>
    intro i acc m b h
    unfold repGo at h
    cases heq : p s i with
    | ok v j => rw [heq] at h; exact ih j _ m b h
    | err m' b' =>
      rw [heq] at h
      rw [hb i m' b' heq] at h
      cases h
    | diverge => rw [heq] at h; cases h

theorem repGo_flag {T : Type} (p : Parser T) (s : List Char) :
    ∀ fuel i acc m, repGo p s fuel i acc ≠ .err m false := by
  intro fuel
  induction fuel with
  | zero => intro i acc m h; cases h
  | succ fuel ih =>
    intro i acc m h
    unfold repGo at h
    cases heq : p s i with
    | ok v j => rw [heq] at h; exact ih j _ m h
    | err m' b' =>
      rw [heq] at h
      cases b' with
      | false => cases h
      | true => cases h
    | diverge => rw [heq] at h; cases h

theorem oneOfGo_flag {T : Type} (s : List Char) (i : Nat) :
    ∀ (ps : List (Parser T)) m, oneOfGo s i ps ≠ .err m false := by
  intro ps
  induction ps with
  | nil => intro m h; cases h
  | cons p rest ih =>
    intro m h
    cases rest with
    | nil =>
      unfold oneOfGo at h
      cases heq : p s i with
      | ok v j => rw [heq] at h; cases h
      | err m' b' =>
        rw [heq] at h
        cases b' with
        | false => cases h
        | true => cases h
      | diverge => rw [heq] at h; cases h
    | cons q rest' =>
      unfold oneOfGo at h
      cases heq : p s i with
      | ok v j => rw [heq] at h; cases h
      | err m' b' =>
        rw [heq] at h
        cases b' with
        | false => cases h
        | true => exact ih m h
      | diverge => rw [heq] at h; cases h

/-- Claim C1: if the antecedent of `conditional(a, c)` succeeds and the
consequent fails, the resulting failure is non-backtrackable and carries the
consequent's message, so `oneOf(conditional(a, c), other)` surfaces that
failure without trying `other` (for every `other`, succeeding or not); an
antecedent failure is propagated as-is; joint success yields the pair of
values at the consequent's end offset. -/
theorem claim_C1 {A B : Type} (a : Parser A) (c : Parser B)
    (s : List Char) (i : Nat) :
    (∀ va j m b, a s i = .ok va j → c s j = .err m b →
      conditional a c s i = .err m false ∧
      ∀ other : Parser (A × B),
        oneOf [conditional a c, other] s i = .err m true)
    ∧ (∀ m b, a s i = .err m b → conditional a c s i = .err m b)
    ∧ (∀ va j vc k, a s i = .ok va j → c s j = .ok vc k →
      conditional a c s i = .ok (va, vc) k) := by
  refine ⟨?_, ?_, ?_⟩
  · intro va j m b ha hc
    have hcc : conditional a c s i = .err m false := by
      simp only [conditional, ha, hc]
    exact ⟨hcc, fun other => by simp [oneOf, oneOfGo, hcc]⟩
  · intro m b ha
    simp only [conditional, ha]
  · intro va j vc k ha hc
    simp only [conditional, ha, hc]

/-- Witness for C1 at a concrete input: `a = exact("a")`, `c = exact("b")`,
source `"ax"`; the antecedent succeeds, the consequent fails, and
`oneOf(conditional(a, c), other)` with `other` succeeding on `"ax"` still
returns the committed failure. -/
theorem claim_C1_witness :
    conditional (exact (str "a")) (exact (str "b")) (str "ax") 0 =
      .err (exactErrMsg (str "b") (str "ax") 1) false
    ∧ oneOf [conditional (exact (str "a")) (exact (str "b")),
        map (fun v => (v, v)) (exact (str "ax"))] (str "ax") 0 =
      .err (exactErrMsg (str "b") (str "ax") 1) true :=
  have h := (claim_C1 (exact (str "a")) (exact (str "b")) (str "ax") 0).1
    (str "a") 1 (exactErrMsg (str "b") (str "ax") 1) true (by decide) (by decide)
  ⟨h.1, h.2 (map (fun v => (v, v)) (exact (str "ax")))⟩

/-- Counterexample for C5: `oneOf(p)` is not identical to `p` when `p` fails
non-backtrackably: `oneOf` rebuilds the failure with `backtrackable = true`
(the `ParseError` constructor default), so the outcomes differ at this
concrete input. -/
theorem claim_C5_counterexample :
    oneOf [conditional (succeed (0 : Nat)) (fail (T := Nat) (str "x"))] [] 0 ≠
      conditional (succeed (0 : Nat)) (fail (T := Nat) (str "x")) [] 0 := by
  decide

/-- Claim C5 (amended): `oneOf()` of zero parsers always fails with exactly
`"No parsers provided"` (a fixed message, no position annotation); `oneOf(p)`
returns `p`'s outcome identically for successes, backtrackable failures and
divergence, while a non-backtrackable failure of `p` is returned with the
same message but with `backtrackable` reset to true. -/
theorem claim_C5_amended {T : Type} (s : List Char) (i : Nat) :
    oneOf ([] : List (Parser T)) s i = .err (str "No parsers provided") true
    ∧ (∀ (p : Parser T) v j, p s i = .ok v j → oneOf [p] s i = .ok v j)
    ∧ (∀ (p : Parser T) m, p s i = .err m true → oneOf [p] s i = .err m true)
    ∧ (∀ (p : Parser T) m, p s i = .err m false → oneOf [p] s i = .err m true)
    ∧ (∀ p : Parser T, p s i = .diverge → oneOf [p] s i = .diverge) := by
  refine ⟨rfl, ?_, ?_, ?_, ?_⟩
  · intro p v j h; simp [oneOf, oneOfGo, h]
  · intro p m h; simp [oneOf, oneOfGo, h]
  · intro p m h; simp [oneOf, oneOfGo, h]
  · intro p h; simp [oneOf, oneOfGo, h]

/-- Witness for C5 (amended) at a concrete input: the single-parser identity
on a success. -/
theorem claim_C5_witness :
    oneOf [exact (str "a")] (str "ab") 0 = .ok (str "a") 1 :=
  (claim_C5_amended (str "ab") 0).2.1 (exact (str "a")) (str "a") 1 (by decide)

/-- Claim C6: `oneOf` tries its parsers at the original offset in listed
order and returns the first success; concretely
`oneOf(exact("longer"), exact("long"))` on `"longer matches"` yields
`"longer"` at offset 6, not the shorter prefix. -/
theorem claim_C6 {T : Type} (p1 : Parser T) (rest : List (Parser T))
    (s : List Char) (i : Nat) :
    (∀ v j, p1 s i = .ok v j → oneOf (p1 :: rest) s i = .ok v j)
    ∧ oneOf [exact (str "longer"), exact (str "long")]
        (str "longer matches") 0 = .ok (str "longer") 6 := by
  refine ⟨?_, by decide⟩
  intro v j h
  cases rest with
  | nil => simp [oneOf, oneOfGo, h]
  | cons q rest' => simp [oneOf, oneOfGo, h]

/-- Witness for C6 at a concrete input: the first-listed parser's success is
returned. -/
theorem claim_C6_witness :
    oneOf [exact (str "a"), exact (str "b")] (str "ab") 0 = .ok (str "a") 1 :=
  (claim_C6 (exact (str "a")) [exact (str "b")] (str "ab") 0).1
    (str "a") 1 (by decide)

/-- Claim C7: `exact(s).parse(t)` succeeds with value `s` and offset
`len(s)` iff `t` starts with `s`; otherwise it fails with a backtrackable,
position-annotated message (here: exactly the one built by the error
formatter, which begins with the rendered location and contains the literal
`s` and the same-length slice of `t`). -/
theorem claim_C7 (s t : List Char) :
    (exact s t 0 = .ok s s.length ↔ s <+: t)
    ∧ (¬ s <+: t →
        exact s t 0 = .err (exactErrMsg s t 0) true
        ∧ (str "Error at (line: 1, column: 1)") <+: exactErrMsg s t 0
        ∧ s <:+: exactErrMsg s t 0
        ∧ jsSlice t 0 s.length <:+: exactErrMsg s t 0) := by
  have hslice : jsSlice t 0 (0 + s.length) = t.take s.length := by
    simp [jsSlice]
  have hpref : (t.take s.length = s) ↔ s <+: t := by
    constructor
    · intro h; exact h ▸ List.take_prefix _ _
    · intro h
      exact (List.prefix_iff_eq_take.mp h).symm
  constructor
  · constructor
    · intro h
      unfold exact at h
      rw [hslice] at h
      by_cases hc : t.take s.length = s
      · exact hpref.mp hc
      · rw [if_neg hc] at h; cases h
    · intro h
      unfold exact
      rw [hslice, if_pos (hpref.mpr h), Nat.zero_add]
  · intro h
    have hc : ¬ t.take s.length = s := fun hc => h (hpref.mp hc)
    have hloc : (getErrorMessageContext t 0).1 =
        str "Error at (line: 1, column: 1)" := rfl
    have hmsg : exactErrMsg s t 0 =
        (getErrorMessageContext t 0).1 ++
          ('\n' :: str "Expected \"" ++ s ++ str "\" but got \"" ++
            jsSlice t 0 (0 + s.length) ++ str "\" instead" ++
            '\n' :: '\n' :: (getErrorMessageContext t 0).2) := rfl
    refine ⟨?_, ?_, ?_, ?_⟩
    · unfold exact
      rw [hslice, if_neg hc]
    · rw [hmsg, hloc]
      exact List.prefix_append _ _
    · refine ⟨(getErrorMessageContext t 0).1 ++ '\n' :: str "Expected \"",
        str "\" but got \"" ++ jsSlice t 0 (0 + s.length) ++
          str "\" instead" ++ '\n' :: '\n' :: (getErrorMessageContext t 0).2,
        ?_⟩
      rw [hmsg]
      simp [List.append_assoc]
    · rw [show jsSlice t 0 s.length = jsSlice t 0 (0 + s.length) from by
        rw [Nat.zero_add]]
      refine ⟨(getErrorMessageContext t 0).1 ++ '\n' :: str "Expected \"" ++
          s ++ str "\" but got \"",
        str "\" instead" ++ '\n' :: '\n' :: (getErrorMessageContext t 0).2,
        ?_⟩
      rw [hmsg]
      simp [List.append_assoc]

/-- Witness for C7 at a concrete input where the literal is not a prefix of
the source. -/
theorem claim_C7_witness :
    exact (str "b") (str "a") 0 =
      .err (exactErrMsg (str "b") (str "a") 0) true
    ∧ (str "Error at (line: 1, column: 1)") <+:
        exactErrMsg (str "b") (str "a") 0
    ∧ (str "b") <:+: exactErrMsg (str "b") (str "a") 0
    ∧ jsSlice (str "a") 0 (str "b").length <:+:
        exactErrMsg (str "b") (str "a") 0 :=
  (claim_C7 (str "b") (str "a")).2 (by decide)

/-- Claim C8: `numberString` parses `"01234"` as `"0"` at offset 1 (no
leading-zero extension) and `"0.14159"` fully; `".14159"` fails; `int` on
`"123.1415"` fails outright with an `"Expected an integer"` message, while
`integerPart` on the same input succeeds with `"123"` at offset 3. -/
theorem claim_C8 :
    numberString (str "01234") 0 = .ok (str "0") 1
    ∧ numberString (str "0.14159") 0 = .ok (str "0.14159") 7
    ∧ (str "0.14159").length = 7
    ∧ numberString (str ".14159") 0 =
        .err (regexErrMsg (str "a number") (str ".14159") 0) true
    ∧ int (str "123.1415") 0 =
        .err (intErrMsg (decValue (str "123.1415")) (str "123.1415") 0) true
    ∧ (str "Expected an integer") <:+:
        intErrMsg (decValue (str "123.1415")) (str "123.1415") 0
    ∧ integerPart (str "123.1415") 0 = .ok (str "123") 3 := by
  decide

/-- Claim C9: `sequence(exact("a"), ..., exact("e"))` on `"abcfg"` fails,
reporting 1-based line 1, column 4 (as computed by the newline-counting
scan), with a message beginning `"Error at (line: 1, column: 4)"` and a
context block whose caret line is three spaces and a caret, pointing at the
character `"f"` at offset 3. -/
theorem claim_C9 :
    sequence [exact (str "a"), exact (str "b"), exact (str "c"),
        exact (str "d"), exact (str "e")] (str "abcfg") 0 =
      .err (str "Error at (line: 1, column: 4)\nExpected \"d\" but got \"f\" instead\n\nabcfg\n   ^") true
    ∧ getCurrentLineAndColumn (str "abcfg") 3 = (1, 4)
    ∧ (str "Error at (line: 1, column: 4)") <+:
        str "Error at (line: 1, column: 4)\nExpected \"d\" but got \"f\" instead\n\nabcfg\n   ^"
    ∧ (str "\n   ^") <:+
        str "Error at (line: 1, column: 4)\nExpected \"d\" but got \"f\" instead\n\nabcfg\n   ^"
    ∧ jsCharAt (str "abcfg") 3 = ['f'] := by
  decide

/-- Counterexample for C4: `oneOrMore(p)` can fail even though `p` succeeds
on the very first attempt: with `p = conditional(exact("a"), exact("b"))` on
`"aba"`, the first attempt succeeds at offset 2, the second fails
non-backtrackably, and the whole repetition fails. -/
theorem claim_C4_counterexample :
    oneOrMore 5 (conditional (exact (str "a")) (exact (str "b")))
        (str "aba") 0 =
      .err (exactErrMsg (str "b") (str "aba") 3) true
    ∧ conditional (exact (str "a")) (exact (str "b")) (str "aba") 0 =
      .ok (str "a", str "b") 2 := by
  decide

/-- Claim C4 (amended): for a parser `p` all of whose failures on the given
source are backtrackable, `zeroOrMore(p)` never fails, and `oneOrMore(p)`
fails if and only if `p` fails at the start index, in which case it returns
`p`'s first failure.  (Without that hypothesis, `oneOrMore` additionally
fails when the failure terminating the repetition after one or more
successes is non-backtrackable, as the counterexample shows.) -/
theorem claim_C4_amended {T : Type} (p : Parser T) (s : List Char)
    (hb : ∀ i m b, p s i = .err m b → b = true) (fuel : Nat) (i : Nat) :
    (∀ m b, zeroOrMore fuel p s i ≠ .err m b)
    ∧ (∀ m b, oneOrMore fuel p s i = .err m b ↔ p s i = .err m b) := by
  constructor
  · intro m b h
    exact repGo_ne_err p s hb fuel i [] m b h
  · intro m b
    constructor
    · intro h
      unfold oneOrMore at h
      cases heq : p s i with
      | ok v j =>
        rw [heq] at h
        exact absurd h (repGo_ne_err p s hb fuel j [v] m b)
      | err m' b' =>
        rw [heq] at h
        dsimp only at h
        cases h
        rfl
      | diverge => rw [heq] at h; cases h
    · intro h
      unfold oneOrMore
      rw [h]

/-- Witness for C4 (amended) at a concrete input: `exact("a")` only produces
backtrackable failures, and on source `"b"` the `oneOrMore` failure is
exactly the first-attempt failure. -/
theorem claim_C4_witness :
    oneOrMore 3 (exact (str "a")) (str "b") 0 =
        .err (exactErrMsg (str "a") (str "b") 0) true ↔
      exact (str "a") (str "b") 0 =
        .err (exactErrMsg (str "a") (str "b") 0) true :=
  (claim_C4_amended (exact (str "a")) (str "b")
    (by
      intro i m b h
      unfold exact at h
      split at h
      · cases h
      · cases h; rfl)
    3 0).2 (exactErrMsg (str "a") (str "b") 0) true

/-- Claim C10: failure-flag plumbing of `oneOf`, `zeroOrMore` and
`oneOrMore`: a non-backtrackable failure that aborts `oneOf`, or that
terminates a repetition (after zero or more successes), is rebuilt from its
message alone with `backtrackable = true` (the `ParseError` constructor
default), so the non-backtrackable flag never survives these combinators;
the only failures forwarded with their original flag are `oneOrMore`'s
first-attempt failure and the last failure of an all-backtrackable
`oneOf`. -/
theorem claim_C10 {T : Type} (p : Parser T) (s : List Char) (i : Nat) :
    (∀ rest m, p s i = .err m false →
      oneOf (p :: rest) s i = .err m true)
    ∧ (∀ q rest m, p s i = .err m true →
      oneOf (p :: q :: rest) s i = oneOf (q :: rest) s i)
    ∧ (∀ m, p s i = .err m true → oneOf [p] s i = .err m true)
    ∧ (∀ (ps : List (Parser T)) m, oneOf ps s i ≠ .err m false)
    ∧ (∀ fuel m acc, p s i = .err m false →
      repGo p s (fuel + 1) i acc = .err m true)
    ∧ (∀ fuel m, p s i = .err m false →
      zeroOrMore (fuel + 1) p s i = .err m true)
    ∧ (∀ fuel v k m, p s i = .ok v k → p s k = .err m false →
      oneOrMore (fuel + 1) p s i = .err m true)
    ∧ (∀ fuel m, zeroOrMore fuel p s i ≠ .err m false)
    ∧ (∀ fuel m b, oneOrMore fuel p s i = .err m b → b = false →
      p s i = .err m false)
    ∧ (∀ fuel m b, p s i = .err m b → oneOrMore fuel p s i = .err m b) := by
  refine ⟨?_, ?_, ?_, ?_, ?_, ?_, ?_, ?_, ?_, ?_⟩
  · intro rest m h
    cases rest with
    | nil => simp [oneOf, oneOfGo, h]
    | cons q rest' => simp [oneOf, oneOfGo, h]
  · intro q rest m h
    simp [oneOf, oneOfGo, h]
  · intro m h
    simp [oneOf, oneOfGo, h]
  · intro ps m h
    exact oneOfGo_flag s i ps m h
  · intro fuel m acc h
    simp [repGo, h]
  · intro fuel m h
    simp [zeroOrMore, repGo, h]
  · intro fuel v k m h1 h2
    simp [oneOrMore, repGo, h1, h2]
  · intro fuel m h
    exact repGo_flag p s fuel i [] m h
  · intro fuel m b h hb
    subst hb
    unfold oneOrMore at h
    cases heq : p s i with
    | ok v j =>
      rw [heq] at h
      exact absurd h (repGo_flag p s fuel j [v] m)
    | err m' b' =>
      rw [heq] at h
      dsimp only at h
      cases h
      rfl
    | diverge => rw [heq] at h; cases h
  · intro fuel m b h
    unfold oneOrMore
    rw [h]

/-- Witness for C10 at a concrete input: a committed (non-backtrackable)
failure aborting `oneOf` comes out with `backtrackable = true`. -/
theorem claim_C10_witness :
    oneOf [conditional (exact (str "a")) (exact (str "b")),
        map (fun v => (v, v)) (exact (str "ax"))] (str "ax") 0 =
      .err (exactErrMsg (str "b") (str "ax") 1) true :=
  (claim_C10 (conditional (exact (str "a")) (exact (str "b")))
      (str "ax") 0).1
    [map (fun v => (v, v)) (exact (str "ax"))]
    (exactErrMsg (str "b") (str "ax") 1) (by decide)

/-- Claim C3 (code bug): every primitive and every combinator other than
the staged `pratt` preserves the claimed end-offset invariant (the `mono`
lemmas above, with `mono_prattIntended` covering the engine's intended
tuple semantics), but the staged `pratt` itself violates the claim: its
tuple reads of object success payloads thread the JS `undefined` through
`full` and `index`, and on the concrete grammar of `stagedScopeExample`
(leaf `exact("x")`, scope `(`/`x`, source `"x"`, start offset 0) it
reports a success whose end offset is `undefined` — not a natural number
at or above the input offset. -/
theorem claim_C3 :
    stagedScopeExample = .ok none none
    ∧ ∀ (v : Option (List Char)) (j : Nat),
        stagedScopeExample ≠ .ok v (some j) := by
  refine ⟨by decide, ?_⟩
  intro v j h
  rw [show stagedScopeExample = .ok none none from by decide] at h
  simp at h

/-- Witness for C3 at a concrete instantiation: the staged success of
`stagedScopeExample` does not report end offset 0 (nor any other natural
number). -/
theorem claim_C3_witness : stagedScopeExample ≠ .ok none (some 0) :=
  claim_C3.2 none 0

theorem prattIntendedNN_step_expr_leaf {U I : Type} (left : Parser U)
    (inf : InfixOption U I) (s : List Char) (f minBP idx : Nat) (v : U)
    (j : Nat) (h : left s idx = .ok v j) :
    prattIntendedNN left inf s (f + 1) (.expr minBP idx) =
      prattIntendedNN left inf s f (.loop minBP v j) := by
  simp only [prattIntendedNN, prattGoIntended, optUn, optScopeBegin, h]

theorem prattIntendedNN_step_loop_eof {U I : Type} (left : Parser U)
    (inf : InfixOption U I) (s : List Char) (f minBP : Nat) (full : U)
    (idx : Nat) (h : idx = s.length) :
    prattIntendedNN left inf s (f + 1) (.loop minBP full idx) = .ok full idx := by
  simp only [prattIntendedNN, prattGoIntended]
  rw [if_pos h]

theorem prattIntendedNN_step_loop_break {U I : Type} (left : Parser U)
    (inf : InfixOption U I) (s : List Char) (f minBP : Nat) (full : U)
    (idx : Nat) (bop : BinaryOperator I) (k : Nat)
    (hne : ¬ idx = s.length) (hop : inf.op s idx = .ok bop k)
    (hbp : bop.bindingPower.1 < minBP) :
    prattIntendedNN left inf s (f + 1) (.loop minBP full idx) = .ok full idx := by
  simp only [prattIntendedNN, prattGoIntended, optUnPost, optScopeEnd, hop]
  rw [if_neg hne, if_pos hbp]

theorem prattIntendedNN_step_loop_continue {U I : Type} (left : Parser U)
    (inf : InfixOption U I) (s : List Char) (f minBP : Nat) (full : U)
    (idx : Nat) (bop : BinaryOperator I) (k : Nat) (rhs : U) (j : Nat)
    (hne : ¬ idx = s.length) (hop : inf.op s idx = .ok bop k)
    (hbp : ¬ bop.bindingPower.1 < minBP)
    (hrhs : prattIntendedNN left inf s f (.expr bop.bindingPower.2 k) = .ok rhs j) :
    prattIntendedNN left inf s (f + 1) (.loop minBP full idx) =
      prattIntendedNN left inf s f (.loop minBP (inf.acc bop.symbol full rhs) j) := by
  simp only [prattIntendedNN, prattGoIntended, optUnPost, optScopeEnd, hop] at hrhs ⊢
  rw [hrhs, if_neg hne, if_neg hbp]

theorem prattIntended_chain_leftAssoc (n : Nat) :
    prattIntended 30 leafSx (infixLeftAssoc n) (none : Option (PreOption Sx (List Char)))
      (none : Option (PostOption Sx (List Char))) (none : Option ScopeOption)
      (str "1-2-3-4") 0 =
    .ok (Sx.bin (str "-")
          (Sx.bin (str "-")
            (Sx.bin (str "-") (Sx.leaf (str "1")) (Sx.leaf (str "2")))
            (Sx.leaf (str "3")))
          (Sx.leaf (str "4"))) 7 := by
  have hlt : n < n + 1 := Nat.lt_succ_self n
  have hz : ¬ n < 0 := Nat.not_lt_zero n
  have o1 : (infixLeftAssoc n).op (str "1-2-3-4") 1 =
      .ok ⟨str "-", (n, n + 1)⟩ 2 := rfl
  have o3 : (infixLeftAssoc n).op (str "1-2-3-4") 3 =
      .ok ⟨str "-", (n, n + 1)⟩ 4 := rfl
  have o5 : (infixLeftAssoc n).op (str "1-2-3-4") 5 =
      .ok ⟨str "-", (n, n + 1)⟩ 6 := rfl
  have r2 : prattIntendedNN leafSx (infixLeftAssoc n) (str "1-2-3-4") 28
      (.expr (n + 1) 2) = .ok (Sx.leaf (str "2")) 3 :=
    calc prattIntendedNN leafSx (infixLeftAssoc n) (str "1-2-3-4") 28 (.expr (n + 1) 2)
        = prattIntendedNN leafSx (infixLeftAssoc n) (str "1-2-3-4") 27
            (.loop (n + 1) (Sx.leaf (str "2")) 3) :=
          prattIntendedNN_step_expr_leaf _ _ _ 27 _ _ _ _ rfl
      _ = .ok (Sx.leaf (str "2")) 3 :=
          prattIntendedNN_step_loop_break _ _ _ 26 _ _ _ _ _ (by decide) o3 hlt
  have r4 : prattIntendedNN leafSx (infixLeftAssoc n) (str "1-2-3-4") 27
      (.expr (n + 1) 4) = .ok (Sx.leaf (str "3")) 5 :=
    calc prattIntendedNN leafSx (infixLeftAssoc n) (str "1-2-3-4") 27 (.expr (n + 1) 4)
        = prattIntendedNN leafSx (infixLeftAssoc n) (str "1-2-3-4") 26
            (.loop (n + 1) (Sx.leaf (str "3")) 5) :=
          prattIntendedNN_step_expr_leaf _ _ _ 26 _ _ _ _ rfl
      _ = .ok (Sx.leaf (str "3")) 5 :=
          prattIntendedNN_step_loop_break _ _ _ 25 _ _ _ _ _ (by decide) o5 hlt
  have r6 : prattIntendedNN leafSx (infixLeftAssoc n) (str "1-2-3-4") 26
      (.expr (n + 1) 6) = .ok (Sx.leaf (str "4")) 7 :=
    calc prattIntendedNN leafSx (infixLeftAssoc n) (str "1-2-3-4") 26 (.expr (n + 1) 6)
        = prattIntendedNN leafSx (infixLeftAssoc n) (str "1-2-3-4") 25
            (.loop (n + 1) (Sx.leaf (str "4")) 7) :=
          prattIntendedNN_step_expr_leaf _ _ _ 25 _ _ _ _ rfl
      _ = .ok (Sx.leaf (str "4")) 7 :=
          prattIntendedNN_step_loop_eof _ _ _ 24 _ _ _ rfl
  show prattIntendedNN leafSx (infixLeftAssoc n) (str "1-2-3-4") 30 (.expr 0 0) = _
  calc prattIntendedNN leafSx (infixLeftAssoc n) (str "1-2-3-4") 30 (.expr 0 0)
      = prattIntendedNN leafSx (infixLeftAssoc n) (str "1-2-3-4") 29
          (.loop 0 (Sx.leaf (str "1")) 1) :=
        prattIntendedNN_step_expr_leaf _ _ _ 29 _ _ _ _ rfl
    _ = prattIntendedNN leafSx (infixLeftAssoc n) (str "1-2-3-4") 28
          (.loop 0 (Sx.bin (str "-") (Sx.leaf (str "1")) (Sx.leaf (str "2"))) 3) :=
        prattIntendedNN_step_loop_continue _ _ _ 28 _ _ _ _ _ _ _ (by decide) o1 hz r2
    _ = prattIntendedNN leafSx (infixLeftAssoc n) (str "1-2-3-4") 27
          (.loop 0 (Sx.bin (str "-")
            (Sx.bin (str "-") (Sx.leaf (str "1")) (Sx.leaf (str "2")))
            (Sx.leaf (str "3"))) 5) :=
        prattIntendedNN_step_loop_continue _ _ _ 27 _ _ _ _ _ _ _ (by decide) o3 hz r4
    _ = prattIntendedNN leafSx (infixLeftAssoc n) (str "1-2-3-4") 26
          (.loop 0 (Sx.bin (str "-")
            (Sx.bin (str "-")
              (Sx.bin (str "-") (Sx.leaf (str "1")) (Sx.leaf (str "2")))
              (Sx.leaf (str "3")))
            (Sx.leaf (str "4"))) 7) :=
        prattIntendedNN_step_loop_continue _ _ _ 26 _ _ _ _ _ _ _ (by decide) o5 hz r6
    _ = .ok (Sx.bin (str "-")
          (Sx.bin (str "-")
            (Sx.bin (str "-") (Sx.leaf (str "1")) (Sx.leaf (str "2")))
            (Sx.leaf (str "3")))
          (Sx.leaf (str "4"))) 7 :=
        prattIntendedNN_step_loop_eof _ _ _ 25 _ _ _ rfl

theorem prattIntended_chain_rightAssoc (n : Nat) :
    prattIntended 30 leafSx (infixRightAssoc n) (none : Option (PreOption Sx (List Char)))
      (none : Option (PostOption Sx (List Char))) (none : Option ScopeOption)
      (str "1-2-3-4") 0 =
    .ok (Sx.bin (str "-") (Sx.leaf (str "1"))
          (Sx.bin (str "-") (Sx.leaf (str "2"))
            (Sx.bin (str "-") (Sx.leaf (str "3")) (Sx.leaf (str "4"))))) 7 := by
  have hz : ¬ n + 1 < 0 := Nat.not_lt_zero (n + 1)
  have hns : ¬ n + 1 < n := by omega
  have o1 : (infixRightAssoc n).op (str "1-2-3-4") 1 =
      .ok ⟨str "-", (n + 1, n)⟩ 2 := rfl
  have o3 : (infixRightAssoc n).op (str "1-2-3-4") 3 =
      .ok ⟨str "-", (n + 1, n)⟩ 4 := rfl
  have o5 : (infixRightAssoc n).op (str "1-2-3-4") 5 =
      .ok ⟨str "-", (n + 1, n)⟩ 6 := rfl
  have r6 : prattIntendedNN leafSx (infixRightAssoc n) (str "1-2-3-4") 24
      (.expr n 6) = .ok (Sx.leaf (str "4")) 7 :=
    calc prattIntendedNN leafSx (infixRightAssoc n) (str "1-2-3-4") 24 (.expr n 6)
        = prattIntendedNN leafSx (infixRightAssoc n) (str "1-2-3-4") 23
            (.loop n (Sx.leaf (str "4")) 7) :=
          prattIntendedNN_step_expr_leaf _ _ _ 23 _ _ _ _ rfl
      _ = .ok (Sx.leaf (str "4")) 7 :=
          prattIntendedNN_step_loop_eof _ _ _ 22 _ _ _ rfl
  have r4 : prattIntendedNN leafSx (infixRightAssoc n) (str "1-2-3-4") 26
      (.expr n 4) =
      .ok (Sx.bin (str "-") (Sx.leaf (str "3")) (Sx.leaf (str "4"))) 7 :=
    calc prattIntendedNN leafSx (infixRightAssoc n) (str "1-2-3-4") 26 (.expr n 4)
        = prattIntendedNN leafSx (infixRightAssoc n) (str "1-2-3-4") 25
            (.loop n (Sx.leaf (str "3")) 5) :=
          prattIntendedNN_step_expr_leaf _ _ _ 25 _ _ _ _ rfl
      _ = prattIntendedNN leafSx (infixRightAssoc n) (str "1-2-3-4") 24
            (.loop n (Sx.bin (str "-") (Sx.leaf (str "3")) (Sx.leaf (str "4"))) 7) :=
          prattIntendedNN_step_loop_continue _ _ _ 24 _ _ _ _ _ _ _ (by decide) o5 hns r6
      _ = .ok (Sx.bin (str "-") (Sx.leaf (str "3")) (Sx.leaf (str "4"))) 7 :=
          prattIntendedNN_step_loop_eof _ _ _ 23 _ _ _ rfl
  have r2 : prattIntendedNN leafSx (infixRightAssoc n) (str "1-2-3-4") 28
      (.expr n 2) =
      .ok (Sx.bin (str "-") (Sx.leaf (str "2"))
            (Sx.bin (str "-") (Sx.leaf (str "3")) (Sx.leaf (str "4")))) 7 :=
    calc prattIntendedNN leafSx (infixRightAssoc n) (str "1-2-3-4") 28 (.expr n 2)
        = prattIntendedNN leafSx (infixRightAssoc n) (str "1-2-3-4") 27
            (.loop n (Sx.leaf (str "2")) 3) :=
          prattIntendedNN_step_expr_leaf _ _ _ 27 _ _ _ _ rfl
      _ = prattIntendedNN leafSx (infixRightAssoc n) (str "1-2-3-4") 26
            (.loop n (Sx.bin (str "-") (Sx.leaf (str "2"))
              (Sx.bin (str "-") (Sx.leaf (str "3")) (Sx.leaf (str "4")))) 7) :=
          prattIntendedNN_step_loop_continue _ _ _ 26 _ _ _ _ _ _ _ (by decide) o3 hns r4
      _ = .ok (Sx.bin (str "-") (Sx.leaf (str "2"))
            (Sx.bin (str "-") (Sx.leaf (str "3")) (Sx.leaf (str "4")))) 7 :=
          prattIntendedNN_step_loop_eof _ _ _ 25 _ _ _ rfl
  show prattIntendedNN leafSx (infixRightAssoc n) (str "1-2-3-4") 30 (.expr 0 0) = _
  calc prattIntendedNN leafSx (infixRightAssoc n) (str "1-2-3-4") 30 (.expr 0 0)
      = prattIntendedNN leafSx (infixRightAssoc n) (str "1-2-3-4") 29
          (.loop 0 (Sx.leaf (str "1")) 1) :=
        prattIntendedNN_step_expr_leaf _ _ _ 29 _ _ _ _ rfl
    _ = prattIntendedNN leafSx (infixRightAssoc n) (str "1-2-3-4") 28
          (.loop 0 (Sx.bin (str "-") (Sx.leaf (str "1"))
            (Sx.bin (str "-") (Sx.leaf (str "2"))
              (Sx.bin (str "-") (Sx.leaf (str "3")) (Sx.leaf (str "4"))))) 7) :=
        prattIntendedNN_step_loop_continue _ _ _ 28 _ _ _ _ _ _ _ (by decide) o1 hz r2
    _ = .ok (Sx.bin (str "-") (Sx.leaf (str "1"))
          (Sx.bin (str "-") (Sx.leaf (str "2"))
            (Sx.bin (str "-") (Sx.leaf (str "3")) (Sx.leaf (str "4"))))) 7 :=
        prattIntendedNN_step_loop_eof _ _ _ 27 _ _ _ rfl

/-- Claim C2 (code bug): on the claim's own configuration (infix `-` at
`[1, 2]` and `/` at `[3, 4]` over integer leaves) and input
`"1 - 2 - 3 - 4"`, the staged `pratt` does not produce the left fold: the
leaf succeeds but the engine's tuple reads of its object payload leave
`full` and `index` `undefined`, the infix operator is then re-tried at the
defaulted offset 0, where it fails, and that failure (expecting `/`, the
last alternative, at line 1 column 1) is returned.  The behaviour the
claim, the spec and `Pratt.test.ts` (which expects `"(- (- (- 1 2) 3) 4)"`
for this very input) require is exhibited by the intent model: the
left-associated fold consuming all 13 characters, and, in general, left
association of a three-use chain under binding power `(n, n + 1)` and
right association under `(n + 1, n)`, for every `n`. -/
theorem claim_C2 :
    (prattStaged 40 leafSx infixMinusDiv (none : Option (PreOption Sx (List Char)))
        (none : Option (PostOption Sx (List Char))) (none : Option ScopeOption)
        (str "1 - 2 - 3 - 4") 0 =
      .err (exactErrMsg (str "/") (str "1 - 2 - 3 - 4") 0) true)
    ∧ (prattIntended 40 leafSx infixMinusDiv (none : Option (PreOption Sx (List Char)))
        (none : Option (PostOption Sx (List Char))) (none : Option ScopeOption)
        (str "1 - 2 - 3 - 4") 0 =
      .ok (Sx.bin (str "-")
            (Sx.bin (str "-")
              (Sx.bin (str "-") (Sx.leaf (str "1")) (Sx.leaf (str "2")))
              (Sx.leaf (str "3")))
            (Sx.leaf (str "4"))) 13)
    ∧ (str "1 - 2 - 3 - 4").length = 13
    ∧ (∀ n : Nat,
        prattIntended 30 leafSx (infixLeftAssoc n) (none : Option (PreOption Sx (List Char)))
          (none : Option (PostOption Sx (List Char))) (none : Option ScopeOption)
          (str "1-2-3-4") 0 =
        .ok (Sx.bin (str "-")
              (Sx.bin (str "-")
                (Sx.bin (str "-") (Sx.leaf (str "1")) (Sx.leaf (str "2")))
                (Sx.leaf (str "3")))
              (Sx.leaf (str "4"))) 7)
    ∧ (∀ n : Nat,
        prattIntended 30 leafSx (infixRightAssoc n) (none : Option (PreOption Sx (List Char)))
          (none : Option (PostOption Sx (List Char))) (none : Option ScopeOption)
          (str "1-2-3-4") 0 =
        .ok (Sx.bin (str "-") (Sx.leaf (str "1"))
              (Sx.bin (str "-") (Sx.leaf (str "2"))
                (Sx.bin (str "-") (Sx.leaf (str "3")) (Sx.leaf (str "4"))))) 7)
    ∧ (str "1-2-3-4").length = 7 :=
  ⟨by decide, by decide, rfl, prattIntended_chain_leftAssoc,
    prattIntended_chain_rightAssoc, rfl⟩

end TSC
